import Mathlib

/-!
Verification development for the Daikin SmartApp API client
(`custom_components/daikin_smartapp`): a shallow embedding of the codec
helpers, tree-merge logic, mode-patch builder, and the request/retry
orchestration of `api.py` and `const.py`, together with theorems settling
the specification claims about them.

Conventions of the embedding:
* Python `dict[str, X]` values are association lists `List (String × X)`
  looked up by first match (Python dicts have unique keys; theorems that
  quantify over arbitrary maps add a `Nodup` hypothesis on keys where the
  distinction matters).  Insertion order is preserved, as in Python.
* JSON-ish payloads are the inductive `JVal`.
* `await`-points on the network are modelled by oracles (`Nat → …`)
  indexed by the number of calls made so far; stateful methods become
  functions from the client state (plus oracles) to result × state ×
  event trace.
* Machine floats only ever hold exact half-degree / tenth values in this
  code, so they are modelled as `ℚ` with Python's round-half-even.
-/

namespace Daikin

/-- First-match lookup in an association list (Python `d[k]` / `d.get(k)`). -/
def aget {α : Type} : List (String × α) → String → Option α
  | [], _ => none
  | (k, v) :: rest, key => if k = key then some v else aget rest key

/-- Python `d[k] = v`: replace in place if the key is present (preserving
its position), otherwise append at the end. -/
def aset {α : Type} : List (String × α) → String → α → List (String × α)
  | [], key, v => [(key, v)]
  | (k, w) :: rest, key, v =>
      if k = key then (k, v) :: rest else (k, w) :: aset rest key v

/-- JSON-like values as delivered by the HTTP transport. -/
inductive JVal where
  | null : JVal
  | bool : Bool → JVal
  | num : Int → JVal
  | str : String → JVal
  | arr : List JVal → JVal
  | obj : List (String × JVal) → JVal

/-- Python truthiness of a JSON value. -/
def jTruthy : JVal → Bool
  | .null => false
  | .bool b => b
  | .num n => n ≠ 0
  | .str s => s ≠ ""
  | .arr xs => ¬xs.isEmpty
  | .obj fs => ¬fs.isEmpty

/-- Model of Python `str()` on JSON values.  Atomic values are rendered
exactly; the renderings of (truthy) lists/dicts are abbreviated: the code
under verification only ever tests such a result for emptiness, and
Python's rendering of a truthy list/dict is likewise never empty. -/
def pyStr : JVal → String
  | .null => "None"
  | .bool b => if b then "True" else "False"
  | .num n => toString n
  | .str s => s
  | .arr _ => "[...]"
  | .obj _ => "\x7b...\x7d"

/-- `node.get(k)` on a JSON object; `None` (here `none`) otherwise. -/
def jGet : JVal → String → Option JVal
  | .obj fs, k => aget fs k
  | _, _ => none

/-- Hex digit value of a character (`0-9a-fA-F`), if any. -/
def hexVal? (c : Char) : Option Nat :=
  if 48 ≤ c.toNat ∧ c.toNat ≤ 57 then some (c.toNat - 48)
  else if 97 ≤ c.toNat ∧ c.toNat ≤ 102 then some (c.toNat - 87)
  else if 65 ≤ c.toNat ∧ c.toNat ≤ 70 then some (c.toNat - 55)
  else none

/-- A character is a hex digit iff `hexVal?` accepts it. -/
def isHexDig (c : Char) : Bool := (hexVal? c).isSome

/-- ASCII whitespace as stripped by Python's `int()` and skipped by
`bytes.fromhex` (`" \t\n\x0b\x0c\r"`). -/
def isAsciiWS (c : Char) : Bool :=
  c = ' ' ∨ c = '\t' ∨ c = '\n' ∨ c = '\x0b' ∨ c = '\x0c' ∨ c = '\r'

/-- Characters that can appear in a string accepted by `pyIntHex`. -/
def hexAllowedChar (c : Char) : Bool :=
  isHexDig c || isAsciiWS c || c = '+' || c = '-' || c = 'x' || c = 'X' || c = '_'

/-- Unsigned value of a list of hex digits, most significant first. -/
def hexListVal : List Char → Nat → Nat
  | [], acc => acc
  | c :: rest, acc => hexListVal rest (16 * acc + (hexVal? c).getD 0)

/-- Digit-run tail of Python's base-16 integer grammar: after an initial
digit, further digits optionally separated by single underscores. -/
def hexRun (acc : Nat) : List Char → Option Nat
  | [] => some acc
  | c :: rest =>
      if c = '_' then
        match rest with
        | [] => none
        | c2 :: rest2 =>
            match hexVal? c2 with
            | some v => hexRun (16 * acc + v) rest2
            | none => none
      else
        match hexVal? c with
        | some v => hexRun (16 * acc + v) rest
        | none => none

/-- Nonempty run of hex digits with single underscores between digits. -/
def hexDigitsPart : List Char → Option Nat
  | [] => none
  | c :: rest =>
      match hexVal? c with
      | some v => hexRun v rest
      | none => none

/-- Digit part allowed directly after a `0x`/`0X` prefix: one underscore
may additionally precede the first digit (`int("0x_ff", 16)` is legal). -/
def hexAfterPrefix (cs : List Char) : Option Nat :=
  match cs with
  | c :: rest => if c = '_' then hexDigitsPart rest else hexDigitsPart cs
  | [] => hexDigitsPart []

/-- Unsigned part of Python's base-16 integer grammar: digits with an
optional `0x`/`0X` prefix. -/
def hexUnsigned (cs : List Char) : Option Nat :=
  match cs with
  | c0 :: x :: rest =>
      if c0 = '0' ∧ (x = 'x' ∨ x = 'X') then hexAfterPrefix rest
      else hexDigitsPart cs
  | _ => hexDigitsPart cs

/-- Signed part: one optional leading `+`/`-`. -/
def hexSigned (cs : List Char) : Option Int :=
  match cs with
  | c :: rest =>
      if c = '+' then (hexUnsigned rest).map Int.ofNat
      else if c = '-' then (hexUnsigned rest).map (fun v => -Int.ofNat v)
      else (hexUnsigned cs).map Int.ofNat
  | [] => (hexUnsigned []).map Int.ofNat

/-- Strip ASCII whitespace from both ends. -/
def stripWS (cs : List Char) : List Char :=
  ((cs.dropWhile isAsciiWS).reverse.dropWhile isAsciiWS).reverse

/-- Codepoints ≥ 127 that CPython's `Py_UNICODE_ISSPACE` accepts
(Unicode 14.0, as shipped with CPython 3.11). -/
def pyUniSpaceCodes : List Nat :=
  [0x85, 0xA0, 0x1680, 0x2000, 0x2001, 0x2002, 0x2003, 0x2004, 0x2005,
   0x2006, 0x2007, 0x2008, 0x2009, 0x200A, 0x2028, 0x2029, 0x202F,
   0x205F, 0x3000]

/-- Non-ASCII Unicode whitespace as mapped to a space by `int()`. -/
def uniSpace (c : Char) : Bool := pyUniSpaceCodes.contains c.toNat

/-- First codepoint (the zero digit) of every decimal-digit run ≥ 127 in
the Unicode 14.0 data CPython 3.11 uses for `Py_UNICODE_TODECIMAL`; each
run is the ten contiguous codepoints `zero .. zero+9`. -/
def ndZeroCodes : List Nat :=
  [0x660, 0x6F0, 0x7C0, 0x966, 0x9E6, 0xA66, 0xAE6, 0xB66, 0xBE6, 0xC66,
   0xCE6, 0xD66, 0xDE6, 0xE50, 0xED0, 0xF20, 0x1040, 0x1090, 0x17E0,
   0x1810, 0x1946, 0x19D0, 0x1A80, 0x1A90, 0x1B50, 0x1BB0, 0x1C40,
   0x1C50, 0xA620, 0xA8D0, 0xA900, 0xA9D0, 0xA9F0, 0xAA50, 0xABF0,
   0xFF10, 0x104A0, 0x10D30, 0x11066, 0x110F0, 0x11136, 0x111D0,
   0x112F0, 0x11450, 0x114D0, 0x11650, 0x116C0, 0x11730, 0x118E0,
   0x11950, 0x11C50, 0x11D50, 0x11DA0, 0x16A60, 0x16AC0, 0x16B50,
   0x1D7CE, 0x1D7D8, 0x1D7E2, 0x1D7EC, 0x1D7F6, 0x1E140, 0x1E2F0,
   0x1E950, 0x1FBF0]

/-- Unicode decimal-digit value of a non-ASCII character
(`Py_UNICODE_TODECIMAL`), if any. -/
def uniDecVal? (c : Char) : Option Nat :=
  match ndZeroCodes.find? (fun z => z ≤ c.toNat ∧ c.toNat < z + 10) with
  | some z => some (c.toNat - z)
  | none => none

/-- CPython's `_PyUnicode_TransformDecimalAndSpaceToASCII`, applied per
character before `int()` parses: codepoints below 127 are kept verbatim;
other Unicode whitespace becomes a space, other Unicode decimal digits
become the corresponding ASCII digit, and everything else becomes `'?'`
(which the parser then rejects). -/
def pyTransformChar (c : Char) : Char :=
  if c.toNat < 127 then c
  else if uniSpace c then ' '
  else
    match uniDecVal? c with
    | some d => Char.ofNat (48 + d)
    | none => '?'

/-- Model of Python `int(s, 16)` (`none` = `ValueError`): the string is
first mapped through `pyTransformChar` (Unicode whitespace/decimal digits
to ASCII), then parsed as optional surrounding ASCII whitespace, optional
sign, optional `0x`/`0X` prefix, and hex digits with single underscores
between digits. -/
def pyIntHex (s : String) : Option Int :=
  hexSigned (stripWS (s.data.map pyTransformChar))

/-- Characters on which `pyIntHex` can return a value: those the Unicode
transform sends into the ASCII set `hexAllowedChar` — ASCII forms
directly, plus non-ASCII Unicode whitespace and decimal digits. -/
def pyHexAllowedChar (c : Char) : Bool :=
  hexAllowedChar c || uniSpace c || (uniDecVal? c).isSome

/-- `api._decode_hex_int` (api.py:77): falsy input gives `None`, then
`int(value, 16)` with `ValueError` swallowed to `None`. -/
def decode_hex_int (value : Option String) : Option Int :=
  match value with
  | none => none
  | some s => if s = "" then none else pyIntHex s

/-- `api._decode_hex_signed_byte` (api.py:86). -/
def decode_hex_signed_byte (value : Option String) : Option Int :=
  match decode_hex_int value with
  | none => none
  | some n => some (if n ≥ 0x80 then n - 0x100 else n)

/-- Python `round()` to an integer: round half to even over `ℚ`. -/
def pyRoundInt (x : ℚ) : ℤ :=
  let f : ℤ := ⌊x⌋
  let r : ℚ := x - f
  if r < 1 / 2 then f
  else if 1 / 2 < r then f + 1
  else if f % 2 = 0 then f else f + 1

/-- Python `round(x, 1)` over `ℚ` (exact on the half-degree values this
client produces, where it is the identity). -/
def pyRoundTo1 (x : ℚ) : ℚ := (pyRoundInt (10 * x) : ℚ) / 10

/-- `api._decode_hex_half_degree` (api.py:95). -/
def decode_hex_half_degree (value : Option String) : Option ℚ :=
  match decode_hex_int value with
  | none => none
  | some n => some (pyRoundTo1 ((n : ℚ) / 2))

/-- Model of `bytes.fromhex` on a character list: hex-digit pairs with
ASCII whitespace skipped between pairs (not within a pair); `none` =
`ValueError`. -/
def fromHexPairs : List Char → Option (List Nat)
  | [] => some []
  | c :: rest =>
      if isAsciiWS c then fromHexPairs rest
      else
        match hexVal? c with
        | none => none
        | some hi =>
            match rest with
            | [] => none
            | c2 :: rest2 =>
                match hexVal? c2 with
                | some lo => (fromHexPairs rest2).map (fun bs => (16 * hi + lo) :: bs)
                | none => none

/-- Little-endian unsigned value of a byte list. -/
def leUnsigned : List Nat → Nat
  | [] => 0
  | b :: rest => b + 256 * leUnsigned rest

/-- `int.from_bytes(bs, byteorder="little", signed=True)`. -/
def leSigned (bs : List Nat) : Int :=
  let u := leUnsigned bs
  let bits := 8 * bs.length
  if bs ≠ [] ∧ u ≥ 2 ^ (bits - 1) then (u : Int) - 2 ^ bits else (u : Int)

/-- `api._decode_hex_le_i16_half_degree` (api.py:102): requires length 4,
decodes via `bytes.fromhex`, interprets little-endian signed, halves and
rounds to one decimal. -/
def decode_hex_le_i16_half_degree (value : Option String) : Option ℚ :=
  match value with
  | none => none
  | some s =>
      if s = "" ∨ s.length ≠ 4 then none
      else
        match fromHexPairs s.data with
        | none => none
        | some bs => some (pyRoundTo1 ((leSigned bs : ℚ) / 2))

/-- Uppercase hex digits of `n`, most significant first. -/
def hexDigitsUpper (n : Nat) : List Char :=
  (Nat.toDigits 16 n).map Char.toUpper

/-- Python `f"{n:02X}"` / `"%02X" % n`: uppercase hex, zero-padded to
width 2. -/
def pyHexUpper2 (n : Nat) : String :=
  let ds := hexDigitsUpper n
  ⟨List.replicate (2 - ds.length) '0' ++ ds⟩

/-- The target-temperature encoder of
`climate.DaikinClimateEntity.async_set_temperature` (climate.py:291):
`half_steps = int(round(temp_c * 2))`, rejected outside `[0, 0xFF]`,
otherwise formatted `f"{half_steps:02X}"`. -/
def encode_half_degree_to_hex_byte (tempC : ℚ) : Option String :=
  let halfSteps := pyRoundInt (tempC * 2)
  if halfSteps < 0 ∨ 0xFF < halfSteps then none
  else some (pyHexUpper2 halfSteps.toNat)

/-- Python string slice `s[:n]` (by characters). -/
def takeChars (n : Nat) (s : String) : String := ⟨s.data.take n⟩

/-- Python `s.upper()` (ASCII; the captured payloads are ASCII). -/
def strUpper (s : String) : String := ⟨s.data.map Char.toUpper⟩

/-! ## Constants and fan-speed extraction (`const.py`) -/

def MODE_CODE_COOL : String := "0200"
def MODE_CODE_DRY : String := "0500"
def MODE_CODE_FAN : String := "0000"
def POWER_OFF : String := "00"
def POWER_ON : String := "01"
def AUTH_MODE_ID_TOKEN : String := "id_token"
def AUTH_MODE_ACCESS_TOKEN : String := "access_token"

def FAN_SPEED_NAME_TO_CODE : List (String × String) :=
  [("Auto", "0A00"), ("Indoor Unit Quiet", "0B00"), ("Level 1", "0300"),
   ("Level 2", "0400"), ("Level 3", "0500"), ("Level 4", "0600"),
   ("Level 5", "0700")]

/-- `{v: k for k, v in FAN_SPEED_NAME_TO_CODE.items()}` (const.py:46). -/
def FAN_SPEED_CODE_TO_NAME : List (String × String) :=
  FAN_SPEED_NAME_TO_CODE.map (fun p => (p.2, p.1))

def MODE_FAN_SPEED_PARAM_KEY : List (String × String) :=
  [(MODE_CODE_COOL, "p_09"), (MODE_CODE_DRY, "p_27"), (MODE_CODE_FAN, "p_28")]

def ALL_FAN_SPEED_PARAM_KEYS : List String := ["p_09", "p_27", "p_28"]

/-- `const.normalize_hex_code` (const.py:57). -/
def normalize_hex_code (value : Option String) (width : Nat := 4) : Option String :=
  match value with
  | none => none
  | some s =>
      if s = "" then none
      else
        let normalized := strUpper s
        if normalized.length < width then none else some (takeChars width normalized)

/-- `const.fan_speed_param_key_for_mode` (const.py:67). -/
def fan_speed_param_key_for_mode (modeCode : Option String) : Option String :=
  match modeCode with
  | none => none
  | some m => if m = "" then none else aget MODE_FAN_SPEED_PARAM_KEY m

/-- The key list built by `extract_fan_speed_code` (const.py:79-80):
preferred key first, then the remaining mode keys. -/
def fanSpeedKeyOrder (preferredKey : Option String) : List String :=
  (match preferredKey with
   | some k => [k]
   | none => []) ++
    ALL_FAN_SPEED_PARAM_KEYS.filter (fun k => preferredKey ≠ some k)

/-- The `for key in keys` loop of `extract_fan_speed_code` (const.py:81-87). -/
def extractFanSpeedLoop (raw : List (String × String)) : List String → Option String
  | [] => none
  | key :: rest =>
      if key = "" then extractFanSpeedLoop raw rest
      else
        match normalize_hex_code (aget raw ("e_3001." ++ key)) 4 with
        | some code =>
            if (aget FAN_SPEED_CODE_TO_NAME code).isSome then some code
            else extractFanSpeedLoop raw rest
        | none => extractFanSpeedLoop raw rest

/-- `const.extract_fan_speed_code` (const.py:74). -/
def extract_fan_speed_code (raw : List (String × String)) (modeCode : Option String) :
    Option String :=
  extractFanSpeedLoop raw (fanSpeedKeyOrder (fan_speed_param_key_for_mode modeCode))

/-! ## Data model (`api.DaikinUnit`, client state) -/

/-- `api.DaikinUnit` (api.py:39). -/
structure DaikinUnit where
  edge_id : String
  name : String
  mac : String
  power_code : Option String
  mode_code : Option String
  fan_code : Option String
  target_temp_c : Option ℚ
  room_temp_c : Option ℚ
  room_humidity_percent : Option Int
  sensor_temp_1_c : Option ℚ
  sensor_temp_2_c : Option ℚ
  raw_status : List (String × String)

/-- The mutable fields of `api.DaikinApiClient` touched by the modelled
operations (tokens, preferred auth mode, unit cache). -/
structure ClientState where
  authMode : String
  accessToken : Option String
  idToken : Option String
  refreshToken : Option String
  units : List (String × DaikinUnit)

/-- Python truthiness of an optional string (`None` and `""` falsy). -/
def strTruthy : Option String → Bool
  | none => false
  | some s => s ≠ ""

/-- Python `a or b` on optional strings. -/
def strOr (a b : Option String) : Option String :=
  if strTruthy a then a else b

/-! ## Tree merge (`api._merge_unit_edge`) -/

/-- `str(child.get("pv") or "")` (api.py:337/341). -/
def pvToStr (pv : Option JVal) : String :=
  match pv with
  | none => ""
  | some v => if jTruthy v then pyStr v else ""

/-- Iteration of Python `node.get("pch", [])`: the list elements when the
field holds a list, nothing when the field is absent.  (On a non-list
`pch` the source would iterate its keys/characters — never dicts — or
raise `TypeError`; theorems restrict to well-formed fragments via
`edgeWF`.) -/
def pchItems (fields : List (String × JVal)) : List JVal :=
  match aget fields "pch" with
  | some (.arr xs) => xs
  | _ => []

/-- Python `node.get("pn") == target` for a string `target`: true only
when the field holds an equal string. -/
def pnIs (v : Option JVal) (target : String) : Bool :=
  match v with
  | some (.str t) => t = target
  | _ => false

/-- Inner loops of `_merge_unit_edge` (api.py:335-341): scan a node's
children for `pn == target`, repeatedly assigning `str(pv or "")`. -/
def scanChildren (node : List (String × JVal)) (target : String) (acc : String) : String :=
  (pchItems node).foldl
    (fun a child =>
      match child with
      | .obj cfs =>
          if pnIs (aget cfs "pn") target then pvToStr (aget cfs "pv") else a
      | _ => a)
    acc

/-- The name/mac extraction of `_merge_unit_edge` (api.py:329-341). -/
def extractNameMac (edge : List (String × JVal)) : String × String :=
  (pchItems edge).foldl
    (fun (acc : String × String) node =>
      match node with
      | .obj nfs =>
          if pnIs (aget nfs "pn") "adp_d" then
            (scanChildren nfs "name" acc.1, acc.2)
          else if pnIs (aget nfs "pn") "adp_i" then
            (acc.1, scanChildren nfs "mac" acc.2)
          else acc
      | _ => acc)
    ("", "")

/-- Well-formedness of a fragment: every `pch` field encountered is a
list (or absent), so the Python source iterates it without `TypeError`. -/
def edgeWF (edge : List (String × JVal)) : Bool :=
  match aget edge "pch" with
  | none => true
  | some (.arr nodes) =>
      nodes.all fun node =>
        match node with
        | .obj nfs =>
            match aget nfs "pch" with
            | none => true
            | some (.arr _) => true
            | some _ => false
        | _ => true
  | some _ => false

/-- The in-place update of an existing unit in `_merge_unit_edge`
(api.py:343-349): overwrite `name`/`mac` only with non-empty values. -/
def updatedUnit (existing : DaikinUnit) (nm : String × String) : DaikinUnit :=
  let u1 := if nm.1 ≠ "" then { existing with name := nm.1 } else existing
  if nm.2 ≠ "" then { u1 with mac := nm.2 } else u1

/-- The fresh unit inserted by `_merge_unit_edge` for a new edge
(api.py:350-363); `name or f"Daikin {edge_id}"` defaults the name. -/
def freshUnit (edgeId name mac : String) : DaikinUnit :=
  { edge_id := edgeId
    name := if name = "" then "Daikin " ++ edgeId else name
    mac := mac
    power_code := none
    mode_code := none
    fan_code := none
    target_temp_c := none
    room_temp_c := none
    room_humidity_percent := none
    sensor_temp_1_c := none
    sensor_temp_2_c := none
    raw_status := [] }

/-- `api._merge_unit_edge` (api.py:328): merge one discovery fragment
into the unit map being built. -/
def merge_unit_edge (units : List (String × DaikinUnit)) (edge : List (String × JVal))
    (edgeId : String) : List (String × DaikinUnit) :=
  let nm := extractNameMac edge
  match aget units edgeId with
  | some existing => aset units edgeId (updatedUnit existing nm)
  | none => units ++ [(edgeId, freshUnit edgeId nm.1 nm.2)]

/-! ## Mode patch builder (`api._build_mode_patch`) -/

/-- The fixed per-mode parameter template of `_build_mode_patch`
(api.py:471-494), in source order. -/
def modeTemplate (modeCode : String) : List (String × String) :=
  if modeCode = MODE_CODE_COOL then
    [("p_02", "32"), ("p_05", "0F0000"), ("p_06", "0F0000"), ("p_09", "0700"),
     ("p_0C", "00")]
  else if modeCode = MODE_CODE_DRY then
    [("p_22", "020000"), ("p_23", "0F0000"), ("p_27", "0A00"), ("p_31", "00")]
  else if modeCode = MODE_CODE_FAN then
    [("p_24", "020000"), ("p_25", "050000"), ("p_28", "0A00")]
  else []

/-- `api._build_mode_patch` (api.py:461): the `p_01` entry, the templated
entries (`overrides.get(key) or raw.get(...) or default`, reset to the
default on a length mismatch), then the non-template override entries. -/
def build_mode_patch (current : DaikinUnit) (modeCode : String)
    (modeParamOverrides : Option (List (String × String))) : List (String × String) :=
  let raw := current.raw_status
  let overrides := modeParamOverrides.getD []
  let patch0 : List (String × String) := [("p_01", modeCode)]
  let patch1 := patch0 ++ (modeTemplate modeCode).map (fun kd =>
    let value := (strOr (aget overrides kd.1)
      (strOr (aget raw ("e_3001." ++ kd.1)) (some kd.2))).getD kd.2
    let value := if value.length ≠ kd.2.length then kd.2 else value
    (kd.1, value))
  let existingKeys := patch1.map Prod.fst
  patch1 ++ overrides.filter (fun kv => ¬(existingKeys.contains kv.1 ∨ kv.1 = "p_01"))

/-! ## Request/login orchestration (`api._multireq`, `api.async_write_state`)

The HTTP transport is an oracle `Nat → MResp` indexed by the number of
requests this operation has sent so far, and `api.async_login`
(api.py:274-297) is abstracted to an oracle `Nat → LoginOutcome`: each
invocation either raises (`fail`) or replaces the three token fields
wholesale; per the source, a login that returns without raising supplies
at least one truthy token (modelled by the success flag of `applyLogin`).
-/

/-- One parsed HTTP response as produced by `api._request` (api.py:241):
status code, best-effort JSON body (`none` = parse failure), raw text. -/
structure MResp where
  status : Int
  body : Option JVal
  text : String

/-- Outcome of one `async_login` call: raise, or the token fields it
assigns (api.py:293-295). -/
inductive LoginOutcome where
  | fail : LoginOutcome
  | ok (accessToken idToken refreshToken : Option String) : LoginOutcome

/-- Apply one login outcome to the client state.  The flag is false when
the call raises: either before assigning tokens (`fail`) or, after
assigning them, because neither token is truthy (api.py:296-297). -/
def applyLogin (st : ClientState) (r : LoginOutcome) : ClientState × Bool :=
  match r with
  | .fail => (st, false)
  | .ok a i rt =>
      ({ st with accessToken := a, idToken := i, refreshToken := rt },
       strTruthy a ∨ strTruthy i)

/-- One branch of `api._token_candidates` (api.py:229-238): a token is a
candidate only when truthy. -/
def tokenOpt (mode : String) (tok : Option String) : List (String × String) :=
  match tok with
  | some s => if s = "" then [] else [(mode, s)]
  | none => []

/-- `api._token_candidates` (api.py:227): ordered by `auth_mode`
preference. -/
def token_candidates (st : ClientState) : List (String × String) :=
  if st.authMode = AUTH_MODE_ACCESS_TOKEN then
    tokenOpt AUTH_MODE_ACCESS_TOKEN st.accessToken ++
      tokenOpt AUTH_MODE_ID_TOKEN st.idToken
  else
    tokenOpt AUTH_MODE_ID_TOKEN st.idToken ++
      tokenOpt AUTH_MODE_ACCESS_TOKEN st.accessToken

/-- `isinstance(data, dict)` on a parsed body. -/
def isDictBody : Option JVal → Bool
  | some (.obj _) => true
  | _ => false

/-- Events observable in a `_multireq` run: one batched request sent with
a candidate token of the given type, or one `async_login` call. -/
inductive MEvent where
  | mreq (mode : String) : MEvent
  | login : MEvent
  deriving BEq, DecidableEq

/-- Result of `_multireq`: the dict body, a `DaikinApiError` carrying the
last status and truncated body text (api.py:324-326), or a
`DaikinAuthError` escaping from `async_login`. -/
inductive MOutcome where
  | ok (body : JVal) : MOutcome
  | apiErr (lastStatus : Int) (bodyExcerpt : String) : MOutcome
  | authErr : MOutcome

/-- The inner candidate loop of `_multireq` (api.py:308-321): one request
per candidate, tracking `last_status`/`last_text`, returning the first
HTTP-200 dict body with the candidate's token type.  Also returns the
next request index and the trace of requests sent. -/
def candLoop (resps : Nat → MResp) (k : Nat) (lastS : Int) (lastT : String) :
    List (String × String) → Option (String × JVal) × Int × String × Nat × List MEvent
  | [] => (none, lastS, lastT, k, [])
  | (mode, _tok) :: rest =>
      let r := resps k
      if r.status = 200 ∧ isDictBody r.body then
        (some (mode, r.body.getD .null), r.status, r.text, k + 1, [.mreq mode])
      else
        let next := candLoop resps (k + 1) r.status r.text rest
        (next.1, next.2.1, next.2.2.1, next.2.2.2.1, .mreq mode :: next.2.2.2.2)

/-- `api._multireq` (api.py:303-326): ensure auth, then two candidate
loops separated by an `async_login`, with a further `async_login` at the
end of the second failed attempt before raising `DaikinApiError`. -/
def multireq (st : ClientState) (resps : Nat → MResp) (logins : Nat → LoginOutcome) :
    MOutcome × ClientState × List MEvent :=
  -- `_ensure_auth` (api.py:299-301)
  let ensure :=
    if ¬strTruthy st.idToken ∧ ¬strTruthy st.accessToken then
      let s := applyLogin st (logins 0)
      (s.1, s.2, 1, [MEvent.login])
    else (st, true, 0, [])
  let st1 := ensure.1
  let li1 : Nat := ensure.2.2.1
  let evs0 := ensure.2.2.2
  if ¬ensure.2.1 then (.authErr, st1, evs0)
  else
    match candLoop resps 0 0 "" (token_candidates st1) with
    | (some (mode, body), _, _, _, evsA) =>
        (.ok body, { st1 with authMode := mode }, evs0 ++ evsA)
    | (none, s1, t1, k1, evsA) =>
        let log1 := applyLogin st1 (logins li1)
        if ¬log1.2 then (.authErr, log1.1, evs0 ++ evsA ++ [.login])
        else
          match candLoop resps k1 s1 t1 (token_candidates log1.1) with
          | (some (mode, body), _, _, _, evsB) =>
              (.ok body, { log1.1 with authMode := mode },
               evs0 ++ evsA ++ [.login] ++ evsB)
          | (none, s2, t2, _, evsB) =>
              let log2 := applyLogin log1.1 (logins (li1 + 1))
              if ¬log2.2 then
                (.authErr, log2.1, evs0 ++ evsA ++ [.login] ++ evsB ++ [.login])
              else
                (.apiErr s2 (takeChars 300 t2), log2.1,
                 evs0 ++ evsA ++ [.login] ++ evsB ++ [.login])

/-- Events observable in an `async_write_state` run. -/
inductive WEvent where
  | wput : WEvent
  | login : WEvent

/-- Result of `async_write_state`. -/
inductive WOutcome where
  | accepted : WOutcome
  | unknownEdge (edgeId : String) : WOutcome
  | writeFailed (status : Int) (bodyExcerpt : String) : WOutcome
  | writeRejected (rsc : Option JVal) : WOutcome
  | authErr : WOutcome

/-- `rsc == n` for an integer `n` (Python `in (2000, 2004)` membership). -/
def jIsNum (v : Option JVal) (n : Int) : Bool :=
  match v with
  | some (.num m) => m = n
  | _ => false

/-- The rsc validation of `async_write_state` (api.py:571-578): only a
non-empty `responses` list whose first element is a dict is validated;
`first.get("rsc")` (which is `None` when the field is absent) must be
2000 or 2004, otherwise the write is rejected. -/
def rscCheck (data : JVal) : WOutcome :=
  match (jGet data "responses").getD (.arr []) with
  | .arr (first :: _) =>
      match first with
      | .obj ffs =>
          let rsc := aget ffs "rsc"
          if jIsNum rsc 2000 ∨ jIsNum rsc 2004 then .accepted
          else .writeRejected rsc
      | _ => .accepted
  | _ => .accepted

/-- The write-operation envelope of `async_write_state` (api.py:529-557). -/
def buildWriteBody (edgeId : String) (modePatch : List (String × String))
    (fanCode : String) (powerOn : Bool) : JVal :=
  .obj [("requests", .arr [.obj [
    ("op", .num 3),
    ("to", .str ("/dsiot/edges/" ++ edgeId ++ "/adr_0100.dgc_status")),
    ("pc", .obj [
      ("pn", .str "dgc_status"),
      ("pch", .arr [.obj [
        ("pn", .str "e_1002"),
        ("pch", .arr [
          .obj [("pn", .str "e_3001"),
                ("pch", .arr (modePatch.map (fun kv =>
                  .obj [("pn", .str kv.1), ("pv", .str kv.2)])))],
          .obj [("pn", .str "e_3003"),
                ("pch", .arr [.obj [("pn", .str "p_2D"), ("pv", .str fanCode)]])],
          .obj [("pn", .str "e_A002"),
                ("pch", .arr [.obj [("pn", .str "p_01"),
                  ("pv", .str (if powerOn then POWER_ON else POWER_OFF))]])]])]])])]])]

/-- Final response handling of `async_write_state` (api.py:568-578). -/
def writeFinalCheck (r : MResp) (st : ClientState) (evs : List WEvent) :
    WOutcome × ClientState × List WEvent :=
  if r.status = 200 ∧ isDictBody r.body then
    (rscCheck (r.body.getD .null), st, evs)
  else (.writeFailed r.status (takeChars 300 r.text), st, evs)

/-- `api.async_write_state` (api.py:512-578): unknown-edge guard, mode
resolution, patch/body construction, ensure-auth, one authenticated PUT
with a single login-and-retry on HTTP 401, then status and rsc checks. -/
def async_write_state (st : ClientState) (edgeId : String) (powerOn : Bool)
    (modeCode : Option String) (modeParamOverrides : Option (List (String × String)))
    (resps : Nat → MResp) (logins : Nat → LoginOutcome) :
    WOutcome × ClientState × List WEvent :=
  match aget st.units edgeId with
  | none => (.unknownEdge edgeId, st, [])
  | some current =>
      let targetMode :=
        (strOr modeCode (strOr current.mode_code (some MODE_CODE_COOL))).getD MODE_CODE_COOL
      let fanCode := (aget current.raw_status "e_3003.p_2D").getD "02"
      let modePatch := build_mode_patch current targetMode modeParamOverrides
      let _body := buildWriteBody edgeId modePatch fanCode powerOn
      -- `_ensure_auth` (api.py:559)
      let ensure :=
        if ¬strTruthy st.idToken ∧ ¬strTruthy st.accessToken then
          let s := applyLogin st (logins 0)
          (s.1, s.2, 1, [WEvent.login])
        else (st, true, 0, [])
      let st1 := ensure.1
      let li1 : Nat := ensure.2.2.1
      let evs0 := ensure.2.2.2
      if ¬ensure.2.1 then (.authErr, st1, evs0)
      -- the `auth=True` guard of `_request` (api.py:256-259)
      else if (token_candidates st1).isEmpty then (.authErr, st1, evs0)
      else
        let r1 := resps 0
        if r1.status = 401 then
          let log1 := applyLogin st1 (logins li1)
          if ¬log1.2 then (.authErr, log1.1, evs0 ++ [.wput, .login])
          else if (token_candidates log1.1).isEmpty then
            (.authErr, log1.1, evs0 ++ [.wput, .login])
          else
            writeFinalCheck (resps 1) log1.1 (evs0 ++ [.wput, .login, .wput])
        else writeFinalCheck r1 st1 (evs0 ++ [.wput])

/-! ## Refresh (`api.async_refresh`) -/

/-- The per-unit decode loop body of `async_refresh` (api.py:445-456):
the unit's `raw_status` is replaced wholesale and every typed field is
recomputed from it. -/
def refreshDecodeUnit (u : DaikinUnit) (raw : List (String × String)) : DaikinUnit :=
  { u with
    raw_status := raw
    mode_code := aget raw "e_3001.p_01"
    fan_code := aget raw "e_3003.p_2D"
    power_code := aget raw "e_A002.p_01"
    target_temp_c := decode_hex_half_degree (aget raw "e_3001.p_02")
    room_temp_c := (decode_hex_signed_byte (aget raw "e_A00B.p_01")).map (fun n => (n : ℚ))
    room_humidity_percent := decode_hex_int (aget raw "e_A00B.p_02")
    sensor_temp_1_c := decode_hex_le_i16_half_degree (aget raw "e_A00B.p_05")
    sensor_temp_2_c := decode_hex_le_i16_half_degree (aget raw "e_A00B.p_06") }

/-- `api.async_refresh` (api.py:438-459), acting on the unit cache
(`self._units`).  The two awaited sub-operations are oracles: the result
of `async_fetch_units` (which always builds a fresh map of fresh
`DaikinUnit` objects, never aliasing the cache) and of
`async_fetch_status`; `.error` models an exception propagating from
them.  (Both sub-calls also evolve the token/auth-mode state internally;
that is outside this function, which only ever assigns `self._units`.)
Returns the method result and the cache after the call. -/
def async_refresh (cache : List (String × DaikinUnit))
    (fetchUnitsResult : Except String (List (String × DaikinUnit)))
    (fetchStatusResult : Except String (List (String × List (String × String)))) :
    Except String (List (String × DaikinUnit)) × List (String × DaikinUnit) :=
  match fetchUnitsResult with
  | .error e => (.error e, cache)
  | .ok units =>
      if units.isEmpty then (.ok [], [])
      else
        match fetchStatusResult with
        | .error e => (.error e, cache)
        | .ok statusMap =>
            let units' := units.map (fun p =>
              (p.1, refreshDecodeUnit p.2 ((aget statusMap p.1).getD [])))
            (.ok units', units')

/-- Value selection for a templated key as described by the (amended)
specification claim: the override if provided and non-empty, else the
unit's raw value if present and non-empty, else the template default; a
length mismatch with the default resets to the default. -/
def templatedValueSpec (overrides raw : List (String × String)) (k d : String) : String :=
  let fromRaw :=
    match aget raw ("e_3001." ++ k) with
    | some rv => if rv = "" then d else rv
    | none => d
  let chosen :=
    match aget overrides k with
    | some ov => if ov = "" then fromRaw else ov
    | none => fromRaw
  if chosen.length ≠ d.length then d else chosen

/-- Fixture: a unit with no decoded state (used to instantiate theorems
at concrete inputs). -/
def blankUnit : DaikinUnit :=
  { edge_id := "1"
    name := "u"
    mac := ""
    power_code := none
    mode_code := none
    fan_code := none
    target_temp_c := none
    room_temp_c := none
    room_humidity_percent := none
    sensor_temp_1_c := none
    sensor_temp_2_c := none
    raw_status := [] }

/-! ## Theorems -/

theorem ws_false_of_hexDig {c : Char} (h : isHexDig c = true) : isAsciiWS c = false := by
  cases hw : isAsciiWS c with
  | false => rfl
  | true =>
      exfalso
      simp only [isAsciiWS, decide_eq_true_eq] at hw
      rcases hw with rfl | rfl | rfl | rfl | rfl | rfl <;> exact absurd h (by decide)

theorem ne_of_hexDig {c d : Char} (h : isHexDig c = true) (hd : isHexDig d = false) :
    c ≠ d := by
  intro e; subst e; rw [h] at hd; exact Bool.noConfusion hd

theorem dropWhile_eq_self_of_none {p : Char → Bool} :
    ∀ cs : List Char, (∀ c ∈ cs, p c = false) → cs.dropWhile p = cs := by
  intro cs h
  cases cs with
  | nil => rfl
  | cons c rest =>
      rw [List.dropWhile_cons, h c (List.mem_cons_self c rest)]
      simp

theorem stripWS_eq_self {cs : List Char} (h : ∀ c ∈ cs, isAsciiWS c = false) :
    stripWS cs = cs := by
  unfold stripWS
  rw [dropWhile_eq_self_of_none cs h,
      dropWhile_eq_self_of_none cs.reverse (fun c hc => h c (List.mem_reverse.mp hc)),
      List.reverse_reverse]

theorem hexRun_of_allHex :
    ∀ (cs : List Char) (acc : Nat), (∀ c ∈ cs, isHexDig c = true) →
      hexRun acc cs = some (hexListVal cs acc) := by
  intro cs
  induction cs with
  | nil => intro acc _; rfl
  | cons c rest ih =>
      intro acc h
      have hc : isHexDig c = true := h c (List.mem_cons_self c rest)
      have hne : c ≠ '_' := ne_of_hexDig hc (by decide)
      obtain ⟨v, hv⟩ := Option.isSome_iff_exists.mp hc
      rw [hexRun.eq_def]
      simp only [if_neg hne, hv, hexListVal]
      rw [ih (16 * acc + v) (fun d hd => h d (List.mem_cons_of_mem c hd))]
      simp [hv]

theorem isHexDig_lt127 {c : Char} (h : isHexDig c = true) : c.toNat < 127 := by
  rw [isHexDig, hexVal?] at h
  split_ifs at h with h1 h2 h3
  · omega
  · omega
  · omega
  · simp at h

theorem pyTransformChar_ascii {c : Char} (h : c.toNat < 127) : pyTransformChar c = c := by
  simp [pyTransformChar, h]

theorem map_pyTransform_of_allHex {cs : List Char}
    (h : ∀ c ∈ cs, isHexDig c = true) : cs.map pyTransformChar = cs := by
  trans cs.map id
  · exact List.map_congr_left fun c hc => pyTransformChar_ascii (isHexDig_lt127 (h c hc))
  · exact List.map_id cs

theorem pyTransform_allowed {c : Char}
    (h : hexAllowedChar (pyTransformChar c) = true ∨
      isAsciiWS (pyTransformChar c) = true) :
    pyHexAllowedChar c = true := by
  by_cases h127 : c.toNat < 127
  · rw [pyTransformChar_ascii h127] at h
    rcases h with h | h
    · simp [pyHexAllowedChar, h]
    · simp [pyHexAllowedChar, hexAllowedChar, h]
  · by_cases hsp : uniSpace c = true
    · simp [pyHexAllowedChar, hsp]
    · cases hdv : uniDecVal? c with
      | some d => simp [pyHexAllowedChar, hdv]
      | none =>
          have ht : pyTransformChar c = '?' := by
            simp [pyTransformChar, h127, hsp, hdv]
          rw [ht] at h
          rcases h with h | h <;> exact absurd h (by decide)

theorem pyIntHex_of_allHex (s : String) (h1 : s.data ≠ [])
    (h2 : ∀ c ∈ s.data, isHexDig c = true) :
    pyIntHex s = some ((hexListVal s.data 0 : Nat) : Int) := by
  unfold pyIntHex
  rw [map_pyTransform_of_allHex h2,
      stripWS_eq_self (fun c hc => ws_false_of_hexDig (h2 c hc))]
  cases hcs : s.data with
  | nil => exact absurd hcs h1
  | cons c rest =>
      have h2' : ∀ d ∈ c :: rest, isHexDig d = true := by rw [← hcs]; exact h2
      have hc : isHexDig c = true := h2' c (List.mem_cons_self c rest)
      have hplus : c ≠ '+' := ne_of_hexDig hc (by decide)
      have hminus : c ≠ '-' := ne_of_hexDig hc (by decide)
      obtain ⟨v, hv⟩ := Option.isSome_iff_exists.mp hc
      have hdp : hexDigitsPart (c :: rest) = some (hexListVal (c :: rest) 0) := by
        simp only [hexDigitsPart, hv, hexListVal]
        rw [hexRun_of_allHex rest v (fun d hd => h2' d (List.mem_cons_of_mem c hd))]
        simp [hv]
      have hu : hexUnsigned (c :: rest) = some (hexListVal (c :: rest) 0) := by
        cases rest with
        | nil => simpa [hexUnsigned] using hdp
        | cons x rest2 =>
            have hx : isHexDig x = true := h2' x (by simp)
            have hxx : x ≠ 'x' := ne_of_hexDig hx (by decide)
            have hxX : x ≠ 'X' := ne_of_hexDig hx (by decide)
            rw [hexUnsigned, if_neg (by simp [hxx, hxX])]
            exact hdp
      rw [hexSigned, if_neg hplus, if_neg hminus, hu]
      rfl

theorem hexRun_allowed :
    ∀ (acc : Nat) (cs : List Char) (n : Nat), hexRun acc cs = some n →
      ∀ c ∈ cs, hexAllowedChar c = true := by
  intro acc cs
  induction acc, cs using hexRun.induct with
  | case1 acc => intro n _ c hc; exact absurd hc (List.not_mem_nil c)
  | case2 acc =>
      intro n hn
      rw [hexRun.eq_def] at hn
      simp at hn
  | case3 acc c2 rest2 v hv ih =>
      intro n hn c hc
      rw [hexRun.eq_def] at hn
      simp only [if_pos rfl, hv] at hn
      rcases hc with _ | ⟨_, hc⟩
      · decide
      rcases hc with _ | ⟨_, hc⟩
      · simp [hexAllowedChar, isHexDig, hv]
      · exact ih n hn c hc
  | case4 acc c2 rest2 hv =>
      intro n hn
      rw [hexRun.eq_def] at hn
      simp [hv] at hn
  | case5 acc c2 rest2 hne v hv ih =>
      intro n hn c hc
      rw [hexRun.eq_def] at hn
      simp only [if_neg hne, hv] at hn
      rcases hc with _ | ⟨_, hc⟩
      · simp [hexAllowedChar, isHexDig, hv]
      · exact ih n hn c hc
  | case6 acc c2 rest2 hne hv =>
      intro n hn
      rw [hexRun.eq_def] at hn
      simp [if_neg hne, hv] at hn

theorem hexDigitsPart_allowed (cs : List Char) (n : Nat) (h : hexDigitsPart cs = some n) :
    ∀ c ∈ cs, hexAllowedChar c = true := by
  cases cs with
  | nil => simp [hexDigitsPart] at h
  | cons c rest =>
      intro d hd
      cases hv : hexVal? c with
      | none => rw [hexDigitsPart, hv] at h; exact absurd h (by simp)
      | some v =>
          rw [hexDigitsPart, hv] at h
          rcases hd with _ | ⟨_, hd⟩
          · simp [hexAllowedChar, isHexDig, hv]
          · exact hexRun_allowed v rest n h d hd

theorem hexAfterPrefix_allowed (cs : List Char) (n : Nat) (h : hexAfterPrefix cs = some n) :
    ∀ c ∈ cs, hexAllowedChar c = true := by
  cases cs with
  | nil => intro c hc; exact absurd hc (List.not_mem_nil c)
  | cons c rest =>
      intro d hd
      by_cases hc : c = '_'
      · rw [hexAfterPrefix, if_pos hc] at h
        rcases hd with _ | ⟨_, hd⟩
        · subst hc; decide
        · exact hexDigitsPart_allowed rest n h d hd
      · rw [hexAfterPrefix, if_neg hc] at h
        exact hexDigitsPart_allowed (c :: rest) n h d hd

theorem hexUnsigned_allowed (cs : List Char) (n : Nat) (h : hexUnsigned cs = some n) :
    ∀ c ∈ cs, hexAllowedChar c = true := by
  match cs with
  | [] => intro c hc; exact absurd hc (List.not_mem_nil c)
  | [c] =>
      exact hexDigitsPart_allowed [c] n h
  | c0 :: x :: rest =>
      by_cases hcx : c0 = '0' ∧ (x = 'x' ∨ x = 'X')
      · rw [hexUnsigned, if_pos hcx] at h
        intro d hd
        rcases hd with _ | ⟨_, hd⟩
        · rcases hcx with ⟨rfl, _⟩; decide
        rcases hd with _ | ⟨_, hd⟩
        · rcases hcx with ⟨_, rfl | rfl⟩ <;> decide
        · exact hexAfterPrefix_allowed rest n h d hd
      · rw [hexUnsigned, if_neg hcx] at h
        exact hexDigitsPart_allowed (c0 :: x :: rest) n h

theorem hexSigned_allowed (cs : List Char) (n : Int) (h : hexSigned cs = some n) :
    ∀ c ∈ cs, hexAllowedChar c = true := by
  match cs with
  | [] => intro c hc; exact absurd hc (List.not_mem_nil c)
  | c :: rest =>
      by_cases hp : c = '+'
      · rw [hexSigned, if_pos hp] at h
        obtain ⟨m, hm, _⟩ := Option.map_eq_some'.mp h
        intro d hd
        rcases hd with _ | ⟨_, hd⟩
        · subst hp; decide
        · exact hexUnsigned_allowed rest m hm d hd
      · by_cases hm2 : c = '-'
        · rw [hexSigned, if_neg hp, if_pos hm2] at h
          obtain ⟨m, hm, _⟩ := Option.map_eq_some'.mp h
          intro d hd
          rcases hd with _ | ⟨_, hd⟩
          · subst hm2; decide
          · exact hexUnsigned_allowed rest m hm d hd
        · rw [hexSigned, if_neg hp, if_neg hm2] at h
          obtain ⟨m, hm, _⟩ := Option.map_eq_some'.mp h
          exact hexUnsigned_allowed (c :: rest) m hm


theorem mem_stripWS_or_ws {cs : List Char} {c : Char} (hc : c ∈ cs) :
    c ∈ stripWS cs ∨ isAsciiWS c = true := by
  have hsplit : cs.takeWhile isAsciiWS ++ cs.dropWhile isAsciiWS = cs :=
    List.takeWhile_append_dropWhile isAsciiWS cs
  rw [← hsplit] at hc
  rcases List.mem_append.mp hc with h1 | h2
  · exact Or.inr (List.mem_takeWhile_imp h1)
  · set d := cs.dropWhile isAsciiWS with hd
    have hc2 : c ∈ d.reverse := List.mem_reverse.mpr h2
    have hsplit2 : d.reverse.takeWhile isAsciiWS ++ d.reverse.dropWhile isAsciiWS =
        d.reverse := List.takeWhile_append_dropWhile isAsciiWS d.reverse
    rw [← hsplit2] at hc2
    rcases List.mem_append.mp hc2 with h3 | h4
    · exact Or.inr (List.mem_takeWhile_imp h3)
    · exact Or.inl (List.mem_reverse.mpr h4)

theorem pyIntHex_allowed (s : String) (n : Int) (h : pyIntHex s = some n) :
    ∀ c ∈ s.data, pyHexAllowedChar c = true := by
  intro c hc
  have hmem : pyTransformChar c ∈ s.data.map pyTransformChar :=
    List.mem_map_of_mem _ hc
  rcases mem_stripWS_or_ws hmem with h1 | h2
  · exact pyTransform_allowed
      (Or.inl (hexSigned_allowed (stripWS (s.data.map pyTransformChar)) n h
        (pyTransformChar c) h1))
  · exact pyTransform_allowed (Or.inr h2)

/-- Claim C6 (amended): `_decode_hex_int` returns absent on `None` and on
the empty string; on a nonempty string of plain hex digits it returns the
unsigned (non-negative) hex value; whenever it returns a value at all,
every character of the input is a hex digit, ASCII whitespace, Unicode
whitespace, a Unicode decimal digit, or one of `+ - x X _` (so any other
character makes it return absent); and it accepts full Python base-16
literal forms — `int(s, 16)` first maps Unicode whitespace and decimal
digits to ASCII — e.g. `"-1"` gives the negative value `-1`, `"١F"`
gives `31`, and NBSP-padded `"\u00A012\u00A0"` gives `18`. -/
theorem claim_C6_amended :
    decode_hex_int none = none ∧
    decode_hex_int (some "") = none ∧
    (∀ s : String, s.data ≠ [] → (∀ c ∈ s.data, isHexDig c = true) →
      decode_hex_int (some s) = some ((hexListVal s.data 0 : Nat) : Int) ∧
      (0 : Int) ≤ ((hexListVal s.data 0 : Nat) : Int)) ∧
    (∀ (s : String) (n : Int), decode_hex_int (some s) = some n →
      ∀ c ∈ s.data, pyHexAllowedChar c = true) ∧
    decode_hex_int (some "-1") = some (-1) ∧
    decode_hex_int (some "\u0661F") = some 31 ∧
    decode_hex_int (some "\u00A012\u00A0") = some 18 := by
  refine ⟨rfl, rfl, ?_, ?_, by decide, by decide, by decide⟩
  · intro s h1 h2
    have hne : s ≠ "" := fun e => h1 (by simp [e])
    rw [decode_hex_int, if_neg hne]
    exact ⟨pyIntHex_of_allHex s h1 h2, Int.ofNat_nonneg _⟩
  · intro s n h
    by_cases he : s = ""
    · subst he; intro c hc; exact absurd hc (List.not_mem_nil c)
    · rw [decode_hex_int, if_neg he] at h
      exact pyIntHex_allowed s n h

theorem claim_C6_amended_witness :
    decode_hex_int (some "2C") = some ((hexListVal "2C".data 0 : Nat) : Int) ∧
    (0 : Int) ≤ ((hexListVal "2C".data 0 : Nat) : Int) :=
  claim_C6_amended.2.2.1 "2C" (by decide) (by decide)

/-- Claim C6, counterexample: `"-1"` contains a non-hex character, so the
claim requires absent, but the source returns `-1` (which is moreover
negative, not unsigned). -/
theorem claim_C6_counterexample :
    ("-1".data.all isHexDig) = false ∧ decode_hex_int (some "-1") = some (-1) := by
  decide

theorem pyRoundInt_intCast (m : ℤ) : pyRoundInt (m : ℚ) = m := by
  unfold pyRoundInt
  simp only [Int.floor_intCast, sub_self]
  norm_num

theorem pyRoundTo1_halfInt (n : ℤ) : pyRoundTo1 ((n : ℚ) / 2) = (n : ℚ) / 2 := by
  unfold pyRoundTo1
  have h : (10 : ℚ) * ((n : ℚ) / 2) = ((5 * n : ℤ) : ℚ) := by push_cast; ring
  rw [h, pyRoundInt_intCast]
  push_cast; ring

set_option maxRecDepth 8000 in
theorem decode_hex_int_pyHexUpper2 :
    ∀ h : Nat, h < 256 → decode_hex_int (some (pyHexUpper2 h)) = some (h : Int) := by
  decide

/-- Claim C5: half-degree codec round trip.  For every half-step integer
`h` in `[0, 255]`, the climate platform's encoder applied to `h/2` yields
`"%02X" % h`, and `_decode_hex_half_degree` applied to `"%02X" % h`
returns exactly `h/2`. -/
theorem claim_C5 (h : Nat) (hh : h < 256) :
    encode_half_degree_to_hex_byte ((h : ℚ) / 2) = some (pyHexUpper2 h) ∧
    decode_hex_half_degree (some (pyHexUpper2 h)) = some ((h : ℚ) / 2) := by
  constructor
  · unfold encode_half_degree_to_hex_byte
    have h2 : ((h : ℚ) / 2) * 2 = ((h : ℤ) : ℚ) := by push_cast; ring
    rw [h2, pyRoundInt_intCast]
    have hr : ¬((h : ℤ) < 0 ∨ (0xFF : ℤ) < (h : ℤ)) := by omega
    rw [if_neg hr]
    simp
  · rw [decode_hex_half_degree, decode_hex_int_pyHexUpper2 h hh]
    have := pyRoundTo1_halfInt (h : ℤ)
    push_cast at this ⊢
    rw [this]

theorem claim_C5_witness :
    encode_half_degree_to_hex_byte (((50 : Nat) : ℚ) / 2) = some (pyHexUpper2 50) ∧
    decode_hex_half_degree (some (pyHexUpper2 50)) = some (((50 : Nat) : ℚ) / 2) :=
  claim_C5 50 (by decide)

theorem isHexDig_of_hexVal {c : Char} {v : Nat} (h : hexVal? c = some v) :
    isHexDig c = true := by rw [isHexDig, h]; rfl

theorem fromHexPairs_four {c0 c1 c2 c3 : Char} {v0 v1 v2 v3 : Nat}
    (h0 : hexVal? c0 = some v0) (h1 : hexVal? c1 = some v1)
    (h2 : hexVal? c2 = some v2) (h3 : hexVal? c3 = some v3) :
    fromHexPairs [c0, c1, c2, c3] = some [16 * v0 + v1, 16 * v2 + v3] := by
  have hw0 : isAsciiWS c0 = false := ws_false_of_hexDig (isHexDig_of_hexVal h0)
  have hw2 : isAsciiWS c2 = false := ws_false_of_hexDig (isHexDig_of_hexVal h2)
  simp only [fromHexPairs, hw0, hw2, Bool.false_eq_true, if_false, h0, h1, h2, h3,
    Option.map_some']

/-- Claim C7 (amended): `_decode_hex_le_i16_half_degree` returns absent
when the input is `None`, its length differs from 4, or `bytes.fromhex`
rejects it; on four hex digits it is the little-endian signed 16-bit
value halved (rounding to one decimal is the identity there); in
particular `"0A00"` decodes to `5.0`.  However, because `bytes.fromhex`
skips ASCII whitespace between byte pairs, a length-4 input containing
whitespace can decode fewer than two bytes instead of being rejected, so
"contains a non-hex character" does not imply absent. -/
theorem claim_C7_amended :
    decode_hex_le_i16_half_degree none = none ∧
    (∀ s : String, s.length ≠ 4 → decode_hex_le_i16_half_degree (some s) = none) ∧
    (∀ s : String, s.length = 4 → fromHexPairs s.data = none →
      decode_hex_le_i16_half_degree (some s) = none) ∧
    (∀ (s : String) (c0 c1 c2 c3 : Char) (v0 v1 v2 v3 : Nat),
      s.data = [c0, c1, c2, c3] →
      hexVal? c0 = some v0 → hexVal? c1 = some v1 →
      hexVal? c2 = some v2 → hexVal? c3 = some v3 →
      decode_hex_le_i16_half_degree (some s) =
        some ((leSigned [16 * v0 + v1, 16 * v2 + v3] : ℚ) / 2)) ∧
    decode_hex_le_i16_half_degree (some "0A00") = some 5 := by
  have hmain : ∀ (s : String) (c0 c1 c2 c3 : Char) (v0 v1 v2 v3 : Nat),
      s.data = [c0, c1, c2, c3] →
      hexVal? c0 = some v0 → hexVal? c1 = some v1 →
      hexVal? c2 = some v2 → hexVal? c3 = some v3 →
      decode_hex_le_i16_half_degree (some s) =
        some ((leSigned [16 * v0 + v1, 16 * v2 + v3] : ℚ) / 2) := by
    intro s c0 c1 c2 c3 v0 v1 v2 v3 hs h0 h1 h2 h3
    have hlen : s.length = 4 := by
      show s.data.length = 4
      rw [hs]; rfl
    have hcond : ¬(s = "" ∨ s.length ≠ 4) := by
      push_neg
      exact ⟨fun e => by rw [e] at hs; exact List.noConfusion hs, hlen⟩
    rw [decode_hex_le_i16_half_degree, if_neg hcond, hs, fromHexPairs_four h0 h1 h2 h3]
    show some (pyRoundTo1 ((leSigned [16 * v0 + v1, 16 * v2 + v3] : ℚ) / 2)) = _
    rw [pyRoundTo1_halfInt]
  refine ⟨rfl, ?_, ?_, hmain, ?_⟩
  · intro s hlen
    rw [decode_hex_le_i16_half_degree, if_pos (Or.inr hlen)]
  · intro s hlen hfp
    have hcond : ¬(s = "" ∨ s.length ≠ 4) := by
      push_neg
      exact ⟨fun e => by rw [e] at hlen; exact absurd hlen (by decide), hlen⟩
    rw [decode_hex_le_i16_half_degree, if_neg hcond, hfp]
  · have h := hmain "0A00" '0' 'A' '0' '0' 0 10 0 0 rfl (by decide) (by decide)
      (by decide) (by decide)
    rw [h, show leSigned [16 * 0 + 10, 16 * 0 + 0] = 10 from by decide]
    norm_num

theorem claim_C7_amended_witness :
    decode_hex_le_i16_half_degree (some "FFFF") =
      some ((leSigned [16 * 15 + 15, 16 * 15 + 15] : ℚ) / 2) :=
  claim_C7_amended.2.2.2.1 "FFFF" 'F' 'F' 'F' 'F' 15 15 15 15 rfl (by decide)
    (by decide) (by decide) (by decide)

/-- Claim C7, counterexample: `"0A  "` has length 4 and contains non-hex
characters (spaces), so the claim requires absent; but `bytes.fromhex`
skips the trailing whitespace, yielding the single byte `0x0A`, and the
source returns `5.0`. -/
theorem claim_C7_counterexample :
    ("0A  " : String).length = 4 ∧ ("0A  ".data.all isHexDig) = false ∧
    decode_hex_le_i16_half_degree (some "0A  ") = some 5 := by
  refine ⟨by decide, by decide, ?_⟩
  have hfp : fromHexPairs "0A  ".data = some [10] := by decide
  rw [decode_hex_le_i16_half_degree, if_neg (by decide), hfp]
  show some (pyRoundTo1 ((leSigned [10] : ℚ) / 2)) = _
  rw [show leSigned [10] = 10 from by decide, pyRoundTo1_halfInt]
  norm_num


theorem extractFanSpeedLoop_cons_some {raw : List (String × String)} {key : String}
    {rest : List String} {code : String} (hk : key ≠ "")
    (hn : normalize_hex_code (aget raw ("e_3001." ++ key)) 4 = some code) :
    extractFanSpeedLoop raw (key :: rest) =
      if (aget FAN_SPEED_CODE_TO_NAME code).isSome = true then some code
      else extractFanSpeedLoop raw rest := by
  rw [extractFanSpeedLoop, if_neg hk, hn]

theorem extractFanSpeedLoop_cons_none {raw : List (String × String)} {key : String}
    {rest : List String} (hk : key ≠ "")
    (hn : normalize_hex_code (aget raw ("e_3001." ++ key)) 4 = none) :
    extractFanSpeedLoop raw (key :: rest) = extractFanSpeedLoop raw rest := by
  rw [extractFanSpeedLoop, if_neg hk, hn]

theorem extractFanSpeedLoop_none_or_known (raw : List (String × String)) :
    ∀ keys : List String,
      extractFanSpeedLoop raw keys = none ∨
      ∃ c, extractFanSpeedLoop raw keys = some c ∧
        (aget FAN_SPEED_CODE_TO_NAME c).isSome = true := by
  intro keys
  induction keys with
  | nil => exact Or.inl rfl
  | cons key rest ih =>
      by_cases hk : key = ""
      · rw [extractFanSpeedLoop, if_pos hk]
        exact ih
      · cases hn : normalize_hex_code (aget raw ("e_3001." ++ key)) 4 with
        | none => rw [extractFanSpeedLoop_cons_none hk hn]; exact ih
        | some code =>
            rw [extractFanSpeedLoop_cons_some hk hn]
            by_cases hc : (aget FAN_SPEED_CODE_TO_NAME code).isSome = true
            · rw [if_pos hc]
              exact Or.inr ⟨code, rfl, hc⟩
            · rw [if_neg hc]
              exact ih

theorem fan_speed_key_cases {mc : Option String} {k : String}
    (h : fan_speed_param_key_for_mode mc = some k) :
    k = "p_09" ∨ k = "p_27" ∨ k = "p_28" := by
  match mc with
  | none => exact absurd h (by simp [fan_speed_param_key_for_mode])
  | some m =>
      rw [fan_speed_param_key_for_mode] at h
      by_cases hm : m = ""
      · rw [if_pos hm] at h; exact absurd h (by simp)
      · rw [if_neg hm] at h
        simp only [ MODE_FAN_SPEED_PARAM_KEY, MODE_CODE_COOL, MODE_CODE_DRY,
          MODE_CODE_FAN, aget] at h
        split_ifs at h with h1 h2 h3 <;> simp_all

/-- Claim C10: `extract_fan_speed_code` returns absent or one of the
seven known fan-speed codes, never an unrecognized code; when the current
mode's preferred parameter key normalizes to a recognized code, that code
is returned; otherwise (unrecognized or no preferred key) the remaining
mode keys are scanned in order. -/
theorem claim_C10 (raw : List (String × String)) (modeCode : Option String) :
    (extract_fan_speed_code raw modeCode = none ∨
      ∃ c, extract_fan_speed_code raw modeCode = some c ∧
        (aget FAN_SPEED_CODE_TO_NAME c).isSome = true) ∧
    (∀ k c, fan_speed_param_key_for_mode modeCode = some k →
      normalize_hex_code (aget raw ("e_3001." ++ k)) 4 = some c →
      (aget FAN_SPEED_CODE_TO_NAME c).isSome = true →
      extract_fan_speed_code raw modeCode = some c) ∧
    (∀ k, fan_speed_param_key_for_mode modeCode = some k →
      (∀ c, normalize_hex_code (aget raw ("e_3001." ++ k)) 4 = some c →
        (aget FAN_SPEED_CODE_TO_NAME c).isSome = false) →
      extract_fan_speed_code raw modeCode =
        extractFanSpeedLoop raw
          (ALL_FAN_SPEED_PARAM_KEYS.filter (fun x => some k ≠ some x))) ∧
    (fan_speed_param_key_for_mode modeCode = none →
      extract_fan_speed_code raw modeCode =
        extractFanSpeedLoop raw ALL_FAN_SPEED_PARAM_KEYS) := by
  refine ⟨extractFanSpeedLoop_none_or_known raw _, ?_, ?_, ?_⟩
  · intro k c hk hn hc
    have hke : k ≠ "" := by
      rcases fan_speed_key_cases hk with rfl | rfl | rfl <;> decide
    rw [extract_fan_speed_code, hk]
    rw [show fanSpeedKeyOrder (some k) =
      k :: ALL_FAN_SPEED_PARAM_KEYS.filter (fun x => some k ≠ some x) from rfl]
    rw [extractFanSpeedLoop_cons_some hke hn, if_pos hc]
  · intro k hk hbad
    have hke : k ≠ "" := by
      rcases fan_speed_key_cases hk with rfl | rfl | rfl <;> decide
    rw [extract_fan_speed_code, hk]
    rw [show fanSpeedKeyOrder (some k) =
      k :: ALL_FAN_SPEED_PARAM_KEYS.filter (fun x => some k ≠ some x) from rfl]
    cases hn : normalize_hex_code (aget raw ("e_3001." ++ k)) 4 with
    | none => rw [extractFanSpeedLoop_cons_none hke hn]
    | some c =>
        rw [extractFanSpeedLoop_cons_some hke hn,
          if_neg (by rw [hbad c hn]; exact Bool.noConfusion)]
  · intro hk
    rw [extract_fan_speed_code, hk]
    rfl

theorem claim_C10_witness :
    extract_fan_speed_code [("e_3001.p_09", "0300")] (some "0200") = some "0300" :=
  (claim_C10 [("e_3001.p_09", "0300")] (some "0200")).2.1 "p_09" "0300" rfl rfl rfl


theorem templatedValue_eq (ovr raw : List (String × String)) (k d : String) :
    (let value := (strOr (aget ovr k) (strOr (aget raw ("e_3001." ++ k)) (some d))).getD d
     if value.length ≠ d.length then d else value) = templatedValueSpec ovr raw k d := by
  unfold templatedValueSpec
  cases hov : aget ovr k with
  | none =>
      cases hrv : aget raw ("e_3001." ++ k) with
      | none => simp [strOr, strTruthy]
      | some rv =>
          by_cases hre : rv = "" <;> simp [strOr, strTruthy, hre]
  | some ov =>
      by_cases hoe : ov = ""
      · cases hrv : aget raw ("e_3001." ++ k) with
        | none => simp [strOr, strTruthy, hoe]
        | some rv =>
            by_cases hre : rv = "" <;> simp [strOr, strTruthy, hoe, hre]
      · simp [strOr, strTruthy, hoe]

/-- Claim C4 (amended): `_build_mode_patch` emits `("p_01", mode_code)`
first; then, for each templated key of the target mode in template order,
the caller's override if provided and non-empty, else the unit's
raw_status value for `e_3001.<key>` if present and non-empty, else the
template default — with the default restored whenever the chosen value's
length differs from the default's; and finally every override entry whose
key is neither a template key nor `p_01`, with its value unchanged.
(Python `or` makes an empty-string override fall through to the raw
value, rather than being length-checked as the claim as stated would
require.)  Passing no override map behaves like an empty one. -/
theorem claim_C4_amended (current : DaikinUnit) (modeCode : String)
    (ovr : List (String × String)) :
    build_mode_patch current modeCode (some ovr) =
      ("p_01", modeCode) ::
        ((modeTemplate modeCode).map (fun kd =>
            (kd.1, templatedValueSpec ovr current.raw_status kd.1 kd.2)) ++
          ovr.filter (fun kv =>
            ¬(((modeTemplate modeCode).map Prod.fst).contains kv.1 ∨ kv.1 = "p_01"))) ∧
    build_mode_patch current modeCode none = build_mode_patch current modeCode (some []) := by
  constructor
  · unfold build_mode_patch
    simp only [Option.getD_some, List.singleton_append, List.cons_append, List.nil_append]
    congr 1
    congr 1
    · apply List.map_congr_left
      intro kd _
      rw [← templatedValue_eq ovr current.raw_status kd.1 kd.2]
    · apply List.filter_congr
      intro kv _
      have hmm : (("p_01", modeCode) ::
          (modeTemplate modeCode).map (fun kd =>
            (kd.1,
              let value := (strOr (aget ovr kd.1)
                (strOr (aget current.raw_status ("e_3001." ++ kd.1)) (some kd.2))).getD kd.2
              if value.length ≠ kd.2.length then kd.2 else value))).map Prod.fst =
          "p_01" :: (modeTemplate modeCode).map Prod.fst := by
        simp [List.map_map]
      rw [hmm]
      by_cases h1 : kv.1 = "p_01" <;>
        by_cases h2 : ((modeTemplate modeCode).map Prod.fst).contains kv.1 <;>
          simp [List.contains_cons, h1, h2]
  · rfl

/-- Claim C4, counterexample: with cool mode, `raw_status` holding
`e_3001.p_02 = "2C"` and the override map `{"p_02": ""}`, the override
for `p_02` is provided, and its length (0) differs from the default
`"32"`'s length, so the claim as stated requires the default `"32"` to be
emitted; the source's Python `or` chain instead treats the empty override
as absent and emits the raw value `"2C"`. -/
theorem claim_C4_counterexample :
    aget [("p_02", "")] "p_02" = some "" ∧
    ("" : String).length ≠ ("32" : String).length ∧
    build_mode_patch { blankUnit with raw_status := [("e_3001.p_02", "2C")] }
        "0200" (some [("p_02", "")]) =
      [("p_01", "0200"), ("p_02", "2C"), ("p_05", "0F0000"), ("p_06", "0F0000"),
       ("p_09", "0700"), ("p_0C", "00")] ∧
    ("2C" : String) ≠ "32" := by
  refine ⟨rfl, by decide, ?_, by decide⟩
  rfl


theorem aget_aset_self {α : Type} :
    ∀ (l : List (String × α)) (k : String) (v : α), aget (aset l k v) k = some v := by
  intro l k v
  induction l with
  | nil => simp [aset, aget]
  | cons p rest ih =>
      obtain ⟨pk, pv⟩ := p
      by_cases h : pk = k
      · simp [aset, aget, h]
      · simp [aset, aget, h, ih]

theorem aget_aset_ne {α : Type} :
    ∀ (l : List (String × α)) (k k2 : String) (v : α), k2 ≠ k →
      aget (aset l k v) k2 = aget l k2 := by
  intro l k k2 v hne
  induction l with
  | nil => simp [aset, aget, Ne.symm hne]
  | cons p rest ih =>
      obtain ⟨pk, pv⟩ := p
      by_cases h : pk = k <;> by_cases h2 : pk = k2 <;>
        simp_all [aset, aget]

theorem aset_self_of_aget {α : Type} :
    ∀ (l : List (String × α)) (k : String) (v : α), aget l k = some v →
      aset l k v = l := by
  intro l k v h
  induction l with
  | nil => simp [aget] at h
  | cons p rest ih =>
      obtain ⟨pk, pv⟩ := p
      by_cases hk : pk = k
      · rw [aget, if_pos hk] at h
        simp only [Option.some_inj] at h
        simp [aset, hk, h]
      · rw [aget, if_neg hk] at h
        simp [aset, hk, ih h]

theorem aget_append_of_none {α : Type} :
    ∀ (l : List (String × α)) (k : String) (v : α), aget l k = none →
      aget (l ++ [(k, v)]) k = some v := by
  intro l k v h
  induction l with
  | nil => simp [aget]
  | cons p rest ih =>
      obtain ⟨pk, pv⟩ := p
      rw [aget] at h
      by_cases hk : pk = k
      · rw [if_pos hk] at h; exact absurd h (by simp)
      · rw [if_neg hk] at h
        rw [List.cons_append, aget, if_neg hk]
        exact ih h

theorem merge_unit_edge_existing {units : List (String × DaikinUnit)}
    {edge : List (String × JVal)} {edgeId : String} {existing : DaikinUnit}
    (hget : aget units edgeId = some existing) :
    merge_unit_edge units edge edgeId =
      aset units edgeId (updatedUnit existing (extractNameMac edge)) := by
  rw [merge_unit_edge, hget]

theorem merge_unit_edge_new {units : List (String × DaikinUnit)}
    {edge : List (String × JVal)} {edgeId : String}
    (hget : aget units edgeId = none) :
    merge_unit_edge units edge edgeId =
      units ++ [(edgeId, freshUnit edgeId (extractNameMac edge).1 (extractNameMac edge).2)] := by
  rw [merge_unit_edge, hget]

theorem updatedUnit_both {existing : DaikinUnit} {nm : String × String}
    (h1 : nm.1 ≠ "") (h2 : nm.2 ≠ "") :
    updatedUnit existing nm = { existing with name := nm.1, mac := nm.2 } := by
  simp [updatedUnit, h1, h2]

/-- Claim C8: merging the same edge fragment twice yields exactly the
same unit map as merging it once, when the fragment supplies non-empty
name and mac; and for an edge already present, the merge overwrites only
`name`/`mac` and only with non-empty extracted values (an empty extracted
name or mac leaves the existing field unchanged; all other unit fields
and all other map entries are untouched).  Fragments are restricted to
well-formed ones (`edgeWF`), on which the Python source iterates without
raising. -/
theorem claim_C8 (units : List (String × DaikinUnit)) (edge : List (String × JVal))
    (edgeId : String) :
    (edgeWF edge = true → (extractNameMac edge).1 ≠ "" → (extractNameMac edge).2 ≠ "" →
      merge_unit_edge (merge_unit_edge units edge edgeId) edge edgeId =
        merge_unit_edge units edge edgeId) ∧
    (∀ u, aget units edgeId = some u →
      ∃ u', aget (merge_unit_edge units edge edgeId) edgeId = some u' ∧
        u'.name = (if (extractNameMac edge).1 = "" then u.name else (extractNameMac edge).1) ∧
        u'.mac = (if (extractNameMac edge).2 = "" then u.mac else (extractNameMac edge).2) ∧
        u'.edge_id = u.edge_id ∧ u'.power_code = u.power_code ∧
        u'.mode_code = u.mode_code ∧ u'.fan_code = u.fan_code ∧
        u'.target_temp_c = u.target_temp_c ∧ u'.room_temp_c = u.room_temp_c ∧
        u'.room_humidity_percent = u.room_humidity_percent ∧
        u'.sensor_temp_1_c = u.sensor_temp_1_c ∧
        u'.sensor_temp_2_c = u.sensor_temp_2_c ∧
        u'.raw_status = u.raw_status ∧
        (∀ eid2, eid2 ≠ edgeId →
          aget (merge_unit_edge units edge edgeId) eid2 = aget units eid2)) := by
  constructor
  · intro _ h1 h2
    cases hget : aget units edgeId with
    | some existing =>
        rw [merge_unit_edge_existing hget]
        rw [merge_unit_edge_existing (aget_aset_self units edgeId _)]
        rw [updatedUnit_both h1 h2, updatedUnit_both h1 h2]
        exact aset_self_of_aget _ _ _ (aget_aset_self units edgeId _)
    | none =>
        rw [merge_unit_edge_new hget]
        rw [merge_unit_edge_existing (aget_append_of_none units edgeId _ hget)]
        rw [updatedUnit_both h1 h2]
        have hfu : ({ freshUnit edgeId (extractNameMac edge).1 (extractNameMac edge).2 with
            name := (extractNameMac edge).1, mac := (extractNameMac edge).2 }) =
            freshUnit edgeId (extractNameMac edge).1 (extractNameMac edge).2 := by
          simp [freshUnit, h1]
        rw [hfu]
        exact aset_self_of_aget _ _ _ (aget_append_of_none units edgeId _ hget)
  · intro u hget
    rw [merge_unit_edge_existing hget]
    refine ⟨updatedUnit u (extractNameMac edge), aget_aset_self units edgeId _,
      ?_, ?_, ?_, ?_, ?_, ?_, ?_, ?_, ?_, ?_, ?_, ?_,
      fun eid2 hne => aget_aset_ne units edgeId eid2 _ hne⟩ <;>
      by_cases h1 : (extractNameMac edge).1 = "" <;>
        by_cases h2 : (extractNameMac edge).2 = "" <;>
          simp [updatedUnit, h1, h2]

theorem claim_C8_witness :
    (edgeWF [("pch", JVal.arr
        [.obj [("pn", .str "adp_d"),
               ("pch", .arr [.obj [("pn", .str "name"), ("pv", .str "Living")]])],
         .obj [("pn", .str "adp_i"),
               ("pch", .arr [.obj [("pn", .str "mac"), ("pv", .str "AA:BB")]])]])] = true) ∧
    merge_unit_edge (merge_unit_edge [] [("pch", JVal.arr
        [.obj [("pn", .str "adp_d"),
               ("pch", .arr [.obj [("pn", .str "name"), ("pv", .str "Living")]])],
         .obj [("pn", .str "adp_i"),
               ("pch", .arr [.obj [("pn", .str "mac"), ("pv", .str "AA:BB")]])]])] "1")
      [("pch", JVal.arr
        [.obj [("pn", .str "adp_d"),
               ("pch", .arr [.obj [("pn", .str "name"), ("pv", .str "Living")]])],
         .obj [("pn", .str "adp_i"),
               ("pch", .arr [.obj [("pn", .str "mac"), ("pv", .str "AA:BB")]])]])] "1" =
    merge_unit_edge [] [("pch", JVal.arr
        [.obj [("pn", .str "adp_d"),
               ("pch", .arr [.obj [("pn", .str "name"), ("pv", .str "Living")]])],
         .obj [("pn", .str "adp_i"),
               ("pch", .arr [.obj [("pn", .str "mac"), ("pv", .str "AA:BB")]])]])] "1" :=
  ⟨rfl, (claim_C8 [] _ "1").1 rfl (by decide) (by decide)⟩


/-- Claim C3: `async_refresh` clears the cache and returns empty when
discovery yields no units; on any error from discovery or the status
fetch it leaves the previous cache entirely unchanged; on success it
replaces the cache wholesale with the freshly decoded map, in which every
unit's `raw_status` is exactly the status map's entry for its edge id
(empty if missing) — never a partial mix with previous data. -/
theorem claim_C3 :
    (∀ (cache : List (String × DaikinUnit)) (e : String)
        (rStatus : Except String (List (String × List (String × String)))),
      async_refresh cache (.error e) rStatus = (.error e, cache)) ∧
    (∀ (cache : List (String × DaikinUnit))
        (rStatus : Except String (List (String × List (String × String)))),
      async_refresh cache (.ok []) rStatus = (.ok [], [])) ∧
    (∀ (cache us : List (String × DaikinUnit)) (e : String), us ≠ [] →
      async_refresh cache (.ok us) (.error e) = (.error e, cache)) ∧
    (∀ (cache us : List (String × DaikinUnit))
        (sm : List (String × List (String × String))), us ≠ [] →
      async_refresh cache (.ok us) (.ok sm) =
        (.ok (us.map fun p => (p.1, refreshDecodeUnit p.2 ((aget sm p.1).getD []))),
         us.map fun p => (p.1, refreshDecodeUnit p.2 ((aget sm p.1).getD [])))) ∧
    (∀ (cache us : List (String × DaikinUnit))
        (sm : List (String × List (String × String))) (eid : String) (u : DaikinUnit),
      us ≠ [] → (eid, u) ∈ (async_refresh cache (.ok us) (.ok sm)).2 →
      u.raw_status = (aget sm eid).getD []) := by
  have hne : ∀ us : List (String × DaikinUnit), us ≠ [] → us.isEmpty = false := by
    intro us h
    cases us with
    | nil => exact absurd rfl h
    | cons a l => rfl
  refine ⟨fun cache e rStatus => rfl, fun cache rStatus => rfl, ?_, ?_, ?_⟩
  · intro cache us e h
    rw [async_refresh]
    rw [if_neg (by rw [hne us h]; exact Bool.noConfusion)]
  · intro cache us sm h
    rw [async_refresh]
    rw [if_neg (by rw [hne us h]; exact Bool.noConfusion)]
  · intro cache us sm eid u h hmem
    rw [async_refresh, if_neg (by rw [hne us h]; exact Bool.noConfusion)] at hmem
    simp only [List.mem_map] at hmem
    obtain ⟨p, _, heq⟩ := hmem
    have hu : u = refreshDecodeUnit p.2 ((aget sm p.1).getD []) := (Prod.ext_iff.mp heq).2.symm
    have heid : p.1 = eid := (Prod.ext_iff.mp heq).1
    rw [hu, ← heid]
    rfl

theorem claim_C3_witness :
    async_refresh [("1", blankUnit)] (.ok [("1", blankUnit)]) (.error "boom") =
      (.error "boom", [("1", blankUnit)]) :=
  claim_C3.2.2.1 [("1", blankUnit)] [("1", blankUnit)] "boom" (by simp)

theorem applyLogin_units (st : ClientState) (r : LoginOutcome) :
    (applyLogin st r).1.units = st.units := by
  cases r <;> rfl

theorem writeFinalCheck_state (r : MResp) (st : ClientState) (evs : List WEvent) :
    (writeFinalCheck r st evs).2.1 = st := by
  rw [writeFinalCheck]
  split <;> rfl

/-- Claim C9 (implicit frame property): `async_write_state` never mutates
the client's unit cache — whatever the oracle responses and login
outcomes, the `units` map of the state after the call is exactly the one
before it (only token/auth state may change, via the logins it
triggers). -/
theorem claim_C9 (st : ClientState) (edgeId : String) (powerOn : Bool)
    (modeCode : Option String) (ovr : Option (List (String × String)))
    (resps : Nat → MResp) (logins : Nat → LoginOutcome) :
    (async_write_state st edgeId powerOn modeCode ovr resps logins).2.1.units = st.units := by
  cases hget : aget st.units edgeId with
  | none => rw [async_write_state, hget]
  | some current =>
      rw [async_write_state, hget]
      simp only []
      split_ifs <;> simp [applyLogin_units, writeFinalCheck_state]

/-- Claim C2 evaluated at its failing input: a write on a known edge
whose first response is HTTP 401 and whose retry response is HTTP 200
with body `{"responses": [{}]}` (first result present but with no `rsc`
field).  The trace confirms the retry discipline the claim states —
exactly two write attempts and one additional login — but the call is
rejected (`Write rejected with rsc=None`) even though `rsc` is absent,
because `first.get("rsc")` yields `None` and `None not in (2000, 2004)`
holds; the claim (and the source's own comment "Validate rsc if
available.") say an absent `rsc` is accepted. -/
theorem claim_C2_code_bug :
    async_write_state
      { authMode := "id_token", accessToken := none, idToken := some "T",
        refreshToken := none, units := [("1", blankUnit)] }
      "1" true none none
      (fun k => if k = 0 then { status := 401, body := none, text := "" }
        else { status := 200,
               body := some (.obj [("responses", .arr [.obj []])]), text := "" })
      (fun _ => .ok (some "A") (some "I") none) =
    (.writeRejected none,
     { authMode := "id_token", accessToken := some "A", idToken := some "I",
       refreshToken := none, units := [("1", blankUnit)] },
     [.wput, .login, .wput]) := by
  rfl


theorem candLoop_success (resps : Nat → MResp) :
    ∀ (cands : List (String × String)) (k : Nat) (lastS : Int) (lastT : String)
      (i : Nat) (hi : i < cands.length),
      (∀ j, j < i → ¬((resps (k + j)).status = 200 ∧ isDictBody (resps (k + j)).body = true)) →
      (resps (k + i)).status = 200 → isDictBody (resps (k + i)).body = true →
      candLoop resps k lastS lastT cands =
        (some ((cands.get ⟨i, hi⟩).1, (resps (k + i)).body.getD .null),
         (resps (k + i)).status, (resps (k + i)).text, k + i + 1,
         (cands.take (i + 1)).map (fun c => MEvent.mreq c.1)) := by
  intro cands
  induction cands with
  | nil => intro k lastS lastT i hi; exact absurd hi (by simp)
  | cons c rest ih =>
      intro k lastS lastT i hi hbad hs hb
      obtain ⟨mode, tok⟩ := c
      match i with
      | 0 =>
          simp only [Nat.add_zero] at hs hb
          rw [candLoop, if_pos ⟨hs, hb⟩]
          simp [hs]
      | i' + 1 =>
          have h0 : ¬((resps (k + 0)).status = 200 ∧ isDictBody (resps (k + 0)).body = true) :=
            hbad 0 (Nat.succ_pos i')
          simp only [Nat.add_zero] at h0
          rw [candLoop, if_neg h0]
          have hi' : i' < rest.length := Nat.lt_of_succ_lt_succ hi
          have hbad' : ∀ j, j < i' →
              ¬((resps (k + 1 + j)).status = 200 ∧ isDictBody (resps (k + 1 + j)).body = true) := by
            intro j hj
            have := hbad (j + 1) (Nat.succ_lt_succ hj)
            rwa [show k + (j + 1) = k + 1 + j from by omega] at this
          have hs' : (resps (k + 1 + i')).status = 200 := by
            rwa [show k + 1 + i' = k + (i' + 1) from by omega]
          have hb' : isDictBody (resps (k + 1 + i')).body = true := by
            rwa [show k + 1 + i' = k + (i' + 1) from by omega]
          rw [ih (k + 1) (resps k).status (resps k).text i' hi' hbad' hs' hb']
          simp only [show k + 1 + i' = k + (i' + 1) from by omega]
          simp [List.take_succ_cons]

theorem candLoop_allFail (resps : Nat → MResp) :
    ∀ (cands : List (String × String)) (k : Nat) (lastS : Int) (lastT : String),
      (∀ j, j < cands.length →
        ¬((resps (k + j)).status = 200 ∧ isDictBody (resps (k + j)).body = true)) →
      candLoop resps k lastS lastT cands =
        (none,
         (if cands.length = 0 then lastS else (resps (k + cands.length - 1)).status),
         (if cands.length = 0 then lastT else (resps (k + cands.length - 1)).text),
         k + cands.length,
         cands.map (fun c => MEvent.mreq c.1)) := by
  intro cands
  induction cands with
  | nil => intro k lastS lastT _; simp [candLoop]
  | cons c rest ih =>
      intro k lastS lastT hbad
      obtain ⟨mode, tok⟩ := c
      have h0 : ¬((resps (k + 0)).status = 200 ∧ isDictBody (resps (k + 0)).body = true) :=
        hbad 0 (by simp)
      simp only [Nat.add_zero] at h0
      rw [candLoop, if_neg h0]
      have hbad' : ∀ j, j < rest.length →
          ¬((resps (k + 1 + j)).status = 200 ∧ isDictBody (resps (k + 1 + j)).body = true) := by
        intro j hj
        have := hbad (j + 1) (by simpa using Nat.succ_lt_succ hj)
        rwa [show k + (j + 1) = k + 1 + j from by omega] at this
      rw [ih (k + 1) (resps k).status (resps k).text hbad']
      by_cases hr : rest.length = 0
      · simp [hr]
      · have h1 : k + 1 + rest.length - 1 = k + (rest.length + 1) - 1 := by omega
        simp [hr, h1]
        omega



theorem tokenOpt_ne_nil {mode : String} {t : Option String} (h : strTruthy t = true) :
    tokenOpt mode t ≠ [] := by
  match t with
  | none => exact absurd h (by decide)
  | some s =>
      have hs : s ≠ "" := by simpa [strTruthy] using h
      simp [tokenOpt, hs]

theorem token_candidates_ne_nil {st : ClientState}
    (h : strTruthy st.idToken = true ∨ strTruthy st.accessToken = true) :
    token_candidates st ≠ [] := by
  rw [token_candidates]
  split
  · intro he
    rcases List.append_eq_nil.mp he with ⟨ha, hi⟩
    rcases h with h | h
    · exact tokenOpt_ne_nil h hi
    · exact tokenOpt_ne_nil h ha
  · intro he
    rcases List.append_eq_nil.mp he with ⟨hi, ha⟩
    rcases h with h | h
    · exact tokenOpt_ne_nil h hi
    · exact tokenOpt_ne_nil h ha

theorem applyLogin_hasTok {st : ClientState} {r : LoginOutcome}
    (h : (applyLogin st r).2 = true) :
    strTruthy (applyLogin st r).1.idToken = true ∨
      strTruthy (applyLogin st r).1.accessToken = true := by
  cases r with
  | fail => simp [applyLogin] at h
  | ok a i rt =>
      simp only [applyLogin, decide_eq_true_eq] at h
      simpa [applyLogin] using h.symm

theorem multireq_hasTok (st : ClientState) (resps : Nat → MResp)
    (logins : Nat → LoginOutcome)
    (h : strTruthy st.idToken = true ∨ strTruthy st.accessToken = true) :
    multireq st resps logins =
      match candLoop resps 0 0 "" (token_candidates st) with
      | (some (mode, body), _, _, _, evsA) =>
          (.ok body, { st with authMode := mode }, evsA)
      | (none, s1, t1, k1, evsA) =>
          let log1 := applyLogin st (logins 0)
          if ¬log1.2 then (.authErr, log1.1, evsA ++ [.login])
          else
            match candLoop resps k1 s1 t1 (token_candidates log1.1) with
            | (some (mode, body), _, _, _, evsB) =>
                (.ok body, { log1.1 with authMode := mode }, evsA ++ [.login] ++ evsB)
            | (none, s2, t2, _, evsB) =>
                let log2 := applyLogin log1.1 (logins 1)
                if ¬log2.2 then
                  (.authErr, log2.1, evsA ++ [.login] ++ evsB ++ [.login])
                else
                  (.apiErr s2 (takeChars 300 t2), log2.1,
                   evsA ++ [.login] ++ evsB ++ [.login]) := by
  have hcond : ¬(¬strTruthy st.idToken = true ∧ ¬strTruthy st.accessToken = true) := by
    tauto
  rw [multireq, if_neg hcond]
  rfl


/-- Claim C1 (amended): under an authenticated state, `_multireq` runs at
most two candidate loops.  (A) In the first loop each candidate token is
tried in `token_candidates` order, one request per candidate, and the
first HTTP-200 object body is returned with `auth_mode` locked to that
candidate's type.  (B) If every candidate fails, a fresh `login()` runs;
if it raises, the auth error propagates.  (C) Otherwise the candidate
loop runs exactly once more over the refreshed candidates.  If it also
fails, one further `login()` is performed (this is the amendment: the
source's loop body ends with a login even on the final iteration):
(D) if that login raises, its auth error propagates instead of a
`DaikinApiError`; (E) if it returns, the call fails with `DaikinApiError`
carrying the last HTTP status and the first 300 characters of the last
body text, and no third candidate loop ever runs. -/
theorem claim_C1_amended (st : ClientState) (resps : Nat → MResp)
    (logins : Nat → LoginOutcome)
    (hasTok : strTruthy st.idToken = true ∨ strTruthy st.accessToken = true) :
    (∀ i (hi : i < (token_candidates st).length),
      (∀ j, j < i → ¬((resps j).status = 200 ∧ isDictBody (resps j).body = true)) →
      (resps i).status = 200 → isDictBody (resps i).body = true →
      multireq st resps logins =
        (.ok ((resps i).body.getD .null),
         { st with authMode := ((token_candidates st).get ⟨i, hi⟩).1 },
         ((token_candidates st).take (i + 1)).map (fun c => MEvent.mreq c.1))) ∧
    ((∀ j, j < (token_candidates st).length →
        ¬((resps j).status = 200 ∧ isDictBody (resps j).body = true)) →
      (applyLogin st (logins 0)).2 = false →
      multireq st resps logins =
        (.authErr, (applyLogin st (logins 0)).1,
         (token_candidates st).map (fun c => MEvent.mreq c.1) ++ [.login])) ∧
    ((∀ j, j < (token_candidates st).length →
        ¬((resps j).status = 200 ∧ isDictBody (resps j).body = true)) →
      (applyLogin st (logins 0)).2 = true →
      ∀ i (hi : i < (token_candidates (applyLogin st (logins 0)).1).length),
        (∀ j, j < i →
          ¬((resps ((token_candidates st).length + j)).status = 200 ∧
            isDictBody (resps ((token_candidates st).length + j)).body = true)) →
        (resps ((token_candidates st).length + i)).status = 200 →
        isDictBody (resps ((token_candidates st).length + i)).body = true →
        multireq st resps logins =
          (.ok ((resps ((token_candidates st).length + i)).body.getD .null),
           { (applyLogin st (logins 0)).1 with
              authMode := ((token_candidates (applyLogin st (logins 0)).1).get ⟨i, hi⟩).1 },
           (token_candidates st).map (fun c => MEvent.mreq c.1) ++ [.login] ++
             ((token_candidates (applyLogin st (logins 0)).1).take (i + 1)).map
               (fun c => MEvent.mreq c.1))) ∧
    ((∀ j, j < (token_candidates st).length →
        ¬((resps j).status = 200 ∧ isDictBody (resps j).body = true)) →
      (applyLogin st (logins 0)).2 = true →
      (∀ j, j < (token_candidates (applyLogin st (logins 0)).1).length →
        ¬((resps ((token_candidates st).length + j)).status = 200 ∧
          isDictBody (resps ((token_candidates st).length + j)).body = true)) →
      (applyLogin (applyLogin st (logins 0)).1 (logins 1)).2 = false →
      multireq st resps logins =
        (.authErr, (applyLogin (applyLogin st (logins 0)).1 (logins 1)).1,
         (token_candidates st).map (fun c => MEvent.mreq c.1) ++ [.login] ++
           (token_candidates (applyLogin st (logins 0)).1).map (fun c => MEvent.mreq c.1) ++
           [.login])) ∧
    ((∀ j, j < (token_candidates st).length →
        ¬((resps j).status = 200 ∧ isDictBody (resps j).body = true)) →
      (applyLogin st (logins 0)).2 = true →
      (∀ j, j < (token_candidates (applyLogin st (logins 0)).1).length →
        ¬((resps ((token_candidates st).length + j)).status = 200 ∧
          isDictBody (resps ((token_candidates st).length + j)).body = true)) →
      (applyLogin (applyLogin st (logins 0)).1 (logins 1)).2 = true →
      multireq st resps logins =
        (.apiErr
          (resps ((token_candidates st).length +
            (token_candidates (applyLogin st (logins 0)).1).length - 1)).status
          (takeChars 300 (resps ((token_candidates st).length +
            (token_candidates (applyLogin st (logins 0)).1).length - 1)).text),
         (applyLogin (applyLogin st (logins 0)).1 (logins 1)).1,
         (token_candidates st).map (fun c => MEvent.mreq c.1) ++ [.login] ++
           (token_candidates (applyLogin st (logins 0)).1).map (fun c => MEvent.mreq c.1) ++
           [.login])) := by
  refine ⟨?_, ?_, ?_, ?_, ?_⟩
  · intro i hi hbad hs hb
    have hbad0 : ∀ j, j < i →
        ¬((resps (0 + j)).status = 200 ∧ isDictBody (resps (0 + j)).body = true) := by
      simpa using hbad
    have hs0 : (resps (0 + i)).status = 200 := by simpa using hs
    have hb0 : isDictBody (resps (0 + i)).body = true := by simpa using hb
    rw [multireq_hasTok st resps logins hasTok,
        candLoop_success resps (token_candidates st) 0 0 "" i hi hbad0 hs0 hb0]
    simp
  · intro hbad hfail
    have hbad0 : ∀ j, j < (token_candidates st).length →
        ¬((resps (0 + j)).status = 200 ∧ isDictBody (resps (0 + j)).body = true) := by
      simpa using hbad
    rw [multireq_hasTok st resps logins hasTok,
        candLoop_allFail resps (token_candidates st) 0 0 "" hbad0]
    simp [hfail]
  · intro hbad1 hlog i hi hbad2 hs hb
    have hbad0 : ∀ j, j < (token_candidates st).length →
        ¬((resps (0 + j)).status = 200 ∧ isDictBody (resps (0 + j)).body = true) := by
      simpa using hbad1
    have hbad2' : ∀ j, j < i →
        ¬((resps (0 + (token_candidates st).length + j)).status = 200 ∧
          isDictBody (resps (0 + (token_candidates st).length + j)).body = true) := by
      simpa using hbad2
    have hs0 : (resps (0 + (token_candidates st).length + i)).status = 200 := by
      simpa using hs
    have hb0 : isDictBody (resps (0 + (token_candidates st).length + i)).body = true := by
      simpa using hb
    rw [multireq_hasTok st resps logins hasTok,
        candLoop_allFail resps (token_candidates st) 0 0 "" hbad0]
    simp only [hlog]
    rw [candLoop_success resps (token_candidates (applyLogin st (logins 0)).1)
        (0 + (token_candidates st).length) _ _ i hi hbad2' hs0 hb0]
    simp
  · intro hbad1 hlog hbad2 hfail
    have hbad0 : ∀ j, j < (token_candidates st).length →
        ¬((resps (0 + j)).status = 200 ∧ isDictBody (resps (0 + j)).body = true) := by
      simpa using hbad1
    have hbad2' : ∀ j, j < (token_candidates (applyLogin st (logins 0)).1).length →
        ¬((resps (0 + (token_candidates st).length + j)).status = 200 ∧
          isDictBody (resps (0 + (token_candidates st).length + j)).body = true) := by
      simpa using hbad2
    rw [multireq_hasTok st resps logins hasTok,
        candLoop_allFail resps (token_candidates st) 0 0 "" hbad0]
    simp only [hlog]
    rw [candLoop_allFail resps (token_candidates (applyLogin st (logins 0)).1)
        (0 + (token_candidates st).length) _ _ hbad2']
    simp [hfail]
  · intro hbad1 hlog hbad2 hok
    have hbad0 : ∀ j, j < (token_candidates st).length →
        ¬((resps (0 + j)).status = 200 ∧ isDictBody (resps (0 + j)).body = true) := by
      simpa using hbad1
    have hbad2' : ∀ j, j < (token_candidates (applyLogin st (logins 0)).1).length →
        ¬((resps (0 + (token_candidates st).length + j)).status = 200 ∧
          isDictBody (resps (0 + (token_candidates st).length + j)).body = true) := by
      simpa using hbad2
    have hne2 : (token_candidates (applyLogin st (logins 0)).1).length ≠ 0 := by
      intro he
      exact token_candidates_ne_nil (applyLogin_hasTok hlog) (List.length_eq_zero.mp he)
    rw [multireq_hasTok st resps logins hasTok,
        candLoop_allFail resps (token_candidates st) 0 0 "" hbad0]
    simp only [hlog]
    rw [candLoop_allFail resps (token_candidates (applyLogin st (logins 0)).1)
        (0 + (token_candidates st).length) _ _ hbad2']
    simp [hok, hne2]


/-- Claim C1, counterexample: with a single usable token, responses that
always fail (HTTP 401) and logins that succeed, the event trace of
`_multireq` ends with a *further* `async_login` call after the second
candidate loop has already failed — two logins in total — contradicting
the claim that no further login is attempted there; and if that final
login raises, the call fails with the auth error instead of the claimed
`DaikinApiError` (second run). -/
theorem claim_C1_counterexample :
    (multireq
        { authMode := "id_token", accessToken := none, idToken := some "T",
          refreshToken := none, units := [] }
        (fun _ => { status := 401, body := none, text := "x" })
        (fun _ => .ok (some "A") (some "I") none)).2.2 =
      [.mreq "id_token", .login, .mreq "id_token", .mreq "access_token", .login] ∧
    (multireq
        { authMode := "id_token", accessToken := none, idToken := some "T",
          refreshToken := none, units := [] }
        (fun _ => { status := 401, body := none, text := "x" })
        (fun _ => .ok (some "A") (some "I") none)).1 = .apiErr 401 "x" ∧
    List.count MEvent.login
      (multireq
        { authMode := "id_token", accessToken := none, idToken := some "T",
          refreshToken := none, units := [] }
        (fun _ => { status := 401, body := none, text := "x" })
        (fun _ => .ok (some "A") (some "I") none)).2.2 = 2 ∧
    (multireq
        { authMode := "id_token", accessToken := none, idToken := some "T",
          refreshToken := none, units := [] }
        (fun _ => { status := 401, body := none, text := "x" })
        (fun k => if k = 0 then .ok (some "A") (some "I") none else .fail)).1 =
      .authErr :=
  ⟨rfl, rfl, rfl, rfl⟩

theorem claim_C1_amended_witness :
    multireq
        { authMode := "id_token", accessToken := none, idToken := some "T",
          refreshToken := none, units := [] }
        (fun _ => { status := 200, body := some (.obj [("a", .num 1)]), text := "" })
        (fun _ => .fail) =
      (.ok (.obj [("a", .num 1)]),
       { authMode := "id_token", accessToken := none, idToken := some "T",
         refreshToken := none, units := [] },
       [.mreq "id_token"]) :=
  (claim_C1_amended
      { authMode := "id_token", accessToken := none, idToken := some "T",
        refreshToken := none, units := [] }
      (fun _ => { status := 200, body := some (.obj [("a", .num 1)]), text := "" })
      (fun _ => .fail)
      (Or.inl (by decide))).1 0 (by decide) (by omega) rfl rfl

end Daikin
